import Mathlib

/-!
Verification development for the gesture-driven particle/photo scene
("Heart Cloud").  The definitions below are shallow embeddings of the
TypeScript sources:

* `src/types.ts`                — `GestureState`, `HandLandmark`
* `src/utils/math.ts`           — `randomInSphere`, `randomInHeart`
  (each `Math.random()` draw becomes an explicit real parameter)
* `src/components/VisionController.tsx` — `detectGesture`, the no-hand
  branch of `predictWebcam`
* `src/App.tsx`                 — `handleHandMove`
* `src/components/PhotoGallery.tsx` — the outer-group frame update, the
  focused-photo placement, the scale guard, and the focus-selection
  effect
* `src/components/HeartParticles.tsx` — the per-frame particle update

Machine floats are modelled as real numbers; a possibly-NaN float is
modelled as `Option ℝ` (`none` = NaN) exactly where the source tests
`isNaN`.  Stateful per-frame callbacks become pure state-passing
functions of the inputs they read.
-/

noncomputable section

namespace HeartCloud

/-- The `GestureState` enumeration from `src/types.ts`. -/
inductive GestureState where
  | DISPERSED
  | FORMED
  | ROTATING
  | FOCUSED
  | LOADING
deriving DecidableEq

/-- The `HandLandmark` interface from `src/types.ts`: a normalized 3D landmark. -/
structure Landmark where
  x : ℝ
  y : ℝ
  z : ℝ

/-- One detected hand: 21 landmarks indexed by anatomical role
(wrist = 0, thumb tip = 4, index tip = 8, middle tip = 12,
ring tip = 16, pinky tip = 20). -/
def HandPose : Type := Fin 21 → Landmark

/-- A 3D vector, standing in for `THREE.Vector3`. -/
@[ext]
structure Vec3 where
  x : ℝ
  y : ℝ
  z : ℝ

instance : Zero Vec3 := ⟨⟨0, 0, 0⟩⟩

instance : Add Vec3 := ⟨fun a b => ⟨a.x + b.x, a.y + b.y, a.z + b.z⟩⟩

instance : Sub Vec3 := ⟨fun a b => ⟨a.x - b.x, a.y - b.y, a.z - b.z⟩⟩

/-- THREE's `MathUtils.lerp(x, y, t) = (1 - t) * x + t * y`. -/
def mathLerp (x y t : ℝ) : ℝ := (1 - t) * x + t * y

/-- THREE's `Vector3.lerp(v, alpha)`: each component moves by
`(v.c - this.c) * alpha`. -/
def vecLerp (p v : Vec3) (alpha : ℝ) : Vec3 :=
  ⟨p.x + (v.x - p.x) * alpha, p.y + (v.y - p.y) * alpha, p.z + (v.z - p.z) * alpha⟩

/-- THREE's `Vector3.distanceTo`. -/
def dist3 (p q : Vec3) : ℝ :=
  Real.sqrt ((p.x - q.x) ^ 2 + (p.y - q.y) ^ 2 + (p.z - q.z) ^ 2)

/-- Euclidean norm of a `Vec3`. -/
def norm3 (p : Vec3) : ℝ :=
  Real.sqrt (p.x ^ 2 + p.y ^ 2 + p.z ^ 2)

/-- The `Math.cbrt` function on the nonnegative reals (every call site draws from
`[0, 1)`). -/
def cbrt (x : ℝ) : ℝ := x ^ ((1 : ℝ) / 3)

/-- The `randomInSphere` sampler from `src/utils/math.ts`.  The three `Math.random()`
draws are passed explicitly, in source order: `u`, `v`, then the radial
draw `w` used inside `Math.cbrt`. -/
def randomInSphere (radius u v w : ℝ) : Vec3 :=
  let theta := 2 * Real.pi * u
  let phi := Real.arccos (2 * v - 1)
  let r := cbrt w * radius
  ⟨r * Real.sin phi * Real.cos theta,
   r * Real.sin phi * Real.sin theta,
   r * Real.cos phi⟩

/-- The `randomInHeart` sampler from `src/utils/math.ts`.  The three `Math.random()`
draws are passed explicitly, in source order: `u` (heart parameter `t`),
`j` (z jitter), and the radial draw `w`. -/
def randomInHeart (scale u j w : ℝ) : Vec3 :=
  let t := u * Real.pi * 2
  let hx := 16 * Real.sin t ^ 3
  let hy := 13 * Real.cos t - 5 * Real.cos (2 * t) - 2 * Real.cos (3 * t) -
    Real.cos (4 * t)
  let hz := (j - 0.5) * 8
  let r := cbrt w
  ⟨hx * r * scale, hy * r * scale, hz * r * scale⟩

/-- The 2D distance helper `dist` inside `detectGesture`
(`src/components/VisionController.tsx`): only `x` and `y` are used. -/
def dist2D (p1 p2 : Landmark) : ℝ :=
  Real.sqrt ((p1.x - p2.x) ^ 2 + (p1.y - p2.y) ^ 2)

/-- The `detectGesture` classifier from `src/components/VisionController.tsx`.  The
argument is the detector's `result.landmarks` list (one entry per hand);
an absent/empty list yields `DISPERSED`.  The early-return structure of
the source is compiled into nested conditionals: the fist check is the
shared continuation of both fall-through paths. -/
def detectGesture (landmarks : List HandPose) : GestureState :=
  match landmarks with
  | [] => GestureState.DISPERSED
  | hand :: _ =>
    let wrist := hand 0
    let thumbTip := hand 4
    let indexTip := hand 8
    let middleTip := hand 12
    let ringTip := hand 16
    let pinkyTip := hand 20
    let pinchDist := dist2D thumbTip indexTip
    let indexDist := dist2D indexTip wrist
    let middleDist := dist2D middleTip wrist
    let ringDist := dist2D ringTip wrist
    let pinkyDist := dist2D pinkyTip wrist
    let avgTipToWrist := (indexDist + middleDist + ringDist + pinkyDist) / 4
    let fistCheck :=
      if avgTipToWrist < 0.25 then GestureState.FORMED else GestureState.DISPERSED
    if pinchDist < 0.06 ∧ (middleDist > 0.2 ∨ ringDist > 0.2) then
      GestureState.FOCUSED
    else if indexDist > 0.35 ∧ middleDist > 0.35 ∧ ringDist < 0.25 ∧
        pinkyDist < 0.25 then
      if pinchDist > 0.1 then GestureState.ROTATING else fistCheck
    else fistCheck

/-- Modelled from the spec wording of the classification cascade (§4.2):
a flat first-match-wins priority list over the five 2D distances.  Used
only to compare against `detectGesture`. -/
def gestureCascadeSpec (pinch eIndex eMiddle eRing ePinky : ℝ) : GestureState :=
  if pinch < 0.06 ∧ (eMiddle > 0.2 ∨ eRing > 0.2) then GestureState.FOCUSED
  else if eIndex > 0.35 ∧ eMiddle > 0.35 ∧ eRing < 0.25 ∧ ePinky < 0.25 ∧
      pinch > 0.1 then GestureState.ROTATING
  else if (eIndex + eMiddle + eRing + ePinky) / 4 < 0.25 then GestureState.FORMED
  else GestureState.DISPERSED

/-- The `handleHandMove` handler from `src/App.tsx`: maps normalized camera
coordinates to the shared world-space hand anchor. -/
def handleHandMove (x y : ℝ) : Vec3 :=
  let sensitivityX : ℝ := 25
  let sensitivityY : ℝ := 15
  ⟨(0.5 - x) * sensitivityX * 2, (0.5 - y) * sensitivityY * 2, 0⟩

/-- One detection cycle of `predictWebcam`
(`src/components/VisionController.tsx`), reduced to its observable
effect: the gesture state passed to `onGestureChange` and the anchor
written by `onHandMove` (composed with `handleHandMove` from
`src/App.tsx`).  With no hand detected the controller reports
`DISPERSED` and calls `onHandMove(0.5, 0.5)`; otherwise it classifies
the landmarks and forwards the first hand's wrist coordinates. -/
def predictCycle (landmarks : List HandPose) : GestureState × Vec3 :=
  match landmarks with
  | [] => (GestureState.DISPERSED, handleHandMove 0.5 0.5)
  | hand :: rest => (detectGesture (hand :: rest), handleHandMove (hand 0).x (hand 0).y)

/-- One entry of the `positions` memo in `PhotoGallery`
(`src/components/PhotoGallery.tsx`, lines 149-154): the precomputed
dispersed/formed target pair of one photo. -/
structure TargetPair where
  dispersed : Vec3
  formed : Vec3

/-- The `positions` memo body of `PhotoGallery`: `images.map(() =>
({dispersed: randomInSphere(30), formed: randomInHeart(0.6)}))`.  The
`Math.random()` source is modelled as the stream `rand`, consumed
sequentially: photo `i` of a build starting at stream offset `start`
uses draws `start + 6*i .. start + 6*i + 5` (three for the sphere, then
three for the heart, in source evaluation order).  React re-runs this
memo whenever the `images` dependency changes, consuming fresh draws
from the current stream position. -/
def buildTargets (rand : ℕ → ℝ) (start n : ℕ) : List TargetPair :=
  (List.range n).map fun i =>
    { dispersed :=
        randomInSphere 30 (rand (start + 6 * i)) (rand (start + 6 * i + 1))
          (rand (start + 6 * i + 2)),
      formed :=
        randomInHeart 0.6 (rand (start + 6 * i + 3)) (rand (start + 6 * i + 4))
          (rand (start + 6 * i + 5)) }

/-- The fixed camera anchor `cameraPos = (0, 0, 30)` used for focus
scoring (`src/components/PhotoGallery.tsx`, line 200). -/
def cameraPos : Vec3 := ⟨0, 0, 30⟩

/-- The fixed world placement target `(0, 0, 20)` of the focused photo
(`src/components/PhotoGallery.tsx`, line 59). -/
def focusWorldTarget : Vec3 := ⟨0, 0, 20⟩

/-- The score of one gallery entry inside the focus-selection effect:
world-space distance to `cameraPos` plus `500` per previous view. -/
def photoScore (world : Vec3 → Vec3) (counts : ℕ → ℕ) (idx : ℕ)
    (localPos : Vec3) : ℝ :=
  dist3 (world localPos) cameraPos + (counts idx : ℝ) * 500

/-- The `forEach` loop of the focus-selection effect over `(idx, score)`
pairs, carrying `bestIndex` and `minScore` (`none` = the initial
`Infinity`); an entry wins only with a strictly smaller score. -/
def selectLoop : List (ℕ × ℝ) → ℕ → Option ℝ → ℕ
  | [], best, _ => best
  | (i, sc) :: rest, _, none => selectLoop rest i (some sc)
  | (i, sc) :: rest, best, some m =>
    if sc < m then selectLoop rest i (some sc) else selectLoop rest best (some m)

/-- Proof-side variant of `selectLoop` that also returns the running
minimum, once the accumulator is known to be finite. -/
def selectLoopP : List (ℕ × ℝ) → ℕ × ℝ → ℕ × ℝ
  | [], acc => acc
  | (i, sc) :: rest, acc =>
    if sc < acc.2 then selectLoopP rest (i, sc) else selectLoopP rest acc

/-- The `bestIndex` produced by the selection loop over a score list,
starting from `bestIndex = 0`, `minScore = Infinity`. -/
def selectBestIdx (scores : List ℝ) : ℕ := selectLoop scores.enum 0 none

/-- The per-entry scores of the focus-selection effect, in iteration
order. -/
def focusScores (world : Vec3 → Vec3) (counts : ℕ → ℕ) (src : List Vec3) :
    List ℝ :=
  src.enum.map fun p => photoScore world counts p.1 p.2

/-- The `sourceLocalPositions` list of the focus-selection effect: the formed
targets if the previous state was `FORMED`/`ROTATING`, else the
dispersed targets. -/
def preFocusSources (prev : GestureState) (positions : List TargetPair) :
    List Vec3 :=
  if prev = GestureState.FORMED ∨ prev = GestureState.ROTATING then
    positions.map TargetPair.formed
  else positions.map TargetPair.dispersed

/-- The mutable pieces read and written by the focus-selection effect of
`PhotoGallery`: `activeIndex`, `viewCounts` (total with default 0,
mirroring `viewCounts[idx] || 0`), and the `previousState` ref. -/
structure GalleryState where
  activeIndex : ℕ
  viewCounts : ℕ → ℕ
  previousState : GestureState

/-- One run of the focus-selection `useEffect`
(`src/components/PhotoGallery.tsx`, lines 192-236).  `world` is the
inner group's current accumulated world transform
(`applyMatrix4(innerGroup.matrixWorld)`).  Selection happens only on a
transition into `FOCUSED` with a nonempty gallery; the `previousState`
ref is overwritten on every run. -/
def focusEffect (g : GestureState) (positions : List TargetPair)
    (world : Vec3 → Vec3) (s : GalleryState) : GalleryState :=
  if g = GestureState.FOCUSED ∧ s.previousState ≠ GestureState.FOCUSED then
    if 0 < positions.length then
      let sources := preFocusSources s.previousState positions
      let best := selectBestIdx (focusScores world s.viewCounts sources)
      { activeIndex := best,
        viewCounts := fun i => if i = best then s.viewCounts i + 1 else s.viewCounts i,
        previousState := g }
    else { s with previousState := g }
  else { s with previousState := g }

/-- The outer-group part of the `PhotoGallery` frame callback
(`src/components/PhotoGallery.tsx`, lines 160-175): position lerp
toward the origin (formed/rotating) or the hand anchor, plus the
parallax tilt lerps.  Returns (new position, new rotation-x, new
rotation-y). -/
def outerGroupTick (g : GestureState) (anchor pos : Vec3) (rotX rotY : ℝ) :
    Vec3 × ℝ × ℝ :=
  let isFormed := g = GestureState.FORMED ∨ g = GestureState.ROTATING
  let targetPos := if isFormed then (0 : Vec3) else anchor
  let targetRotX := -anchor.y * 0.05
  let targetRotY := anchor.x * 0.05
  (vecLerp pos targetPos 0.1, mathLerp rotX targetRotX 0.05,
    mathLerp rotY targetRotY 0.05)

/-- A `THREE.Vector3` of machine floats, each possibly NaN
(`none` = NaN). -/
structure Vec3Opt where
  x : Option ℝ
  y : Option ℝ
  z : Option ℝ

/-- THREE's `MathUtils.lerp` on possibly-NaN floats: NaN propagates. -/
def fLerp (x y : Option ℝ) (t : ℝ) : Option ℝ :=
  match x, y with
  | some a, some b => some ((1 - t) * a + t * b)
  | _, _ => none

/-- The scale update of the `PhotoFrame` frame callback
(`src/components/PhotoGallery.tsx`, lines 84-89): interpolate the mesh's
current `scale.y` toward `targetScale` with damping `0.08` and apply the
result only when it is not NaN and exceeds `0.001`. -/
def scaleTick (scale : Vec3Opt) (targetScale aspect : ℝ) : Vec3Opt :=
  match fLerp scale.y (some targetScale) 0.08 with
  | none => scale
  | some nextScale =>
    if nextScale > 0.001 then ⟨some (nextScale * aspect), some nextScale, some 1⟩
    else scale

/-- A quaternion-plus-translation world transform of a `THREE.Group`
(our groups are never scaled). -/
structure GroupTransform where
  quat : Quaternion ℝ
  pos : Vec3

/-- Embed a vector as a pure quaternion. -/
def pureQuat (v : Vec3) : Quaternion ℝ := ⟨0, v.x, v.y, v.z⟩

/-- The imaginary part of a quaternion, as a vector. -/
def imVec (q : Quaternion ℝ) : Vec3 := ⟨q.imI, q.imJ, q.imK⟩

/-- THREE's `Vector3.applyQuaternion`: conjugation `q v q*`. -/
def rotateByQuat (q : Quaternion ℝ) (v : Vec3) : Vec3 :=
  imVec (q * pureQuat v * star q)

/-- The local-to-world map of a group transform. -/
def localToWorld (T : GroupTransform) (v : Vec3) : Vec3 :=
  rotateByQuat T.quat v + T.pos

/-- THREE's `Object3D.worldToLocal`: the inverse of the world transform
(for a unit rotation quaternion, rotation by the conjugate after
un-translating). -/
def worldToLocal (T : GroupTransform) (p : Vec3) : Vec3 :=
  rotateByQuat (star T.quat) (p - T.pos)

/-- The destination computed for one photo in the `PhotoFrame` frame
callback (`src/components/PhotoGallery.tsx`, lines 46-78), as a function
of the rotating parent group's current world transform.  The focused
branch converts the fixed world point `(0,0,20)` into the parent's local
space; `posX` is the photo's persistent random `position.current.x` used
as the bobbing phase. -/
def photoDest (isFocused : Bool) (g : GestureState) (targetPos : Vec3)
    (time posX : ℝ) (parent : GroupTransform) : Vec3 :=
  if isFocused then worldToLocal parent focusWorldTarget
  else if g = GestureState.FOCUSED then ⟨targetPos.x, targetPos.y, targetPos.z - 40⟩
  else if g = GestureState.FORMED ∨ g = GestureState.ROTATING then targetPos
  else ⟨targetPos.x, targetPos.y + Real.sin (time + posX) * 2, targetPos.z⟩

/-- The orientation written to the focused photo
(`src/components/PhotoGallery.tsx`, lines 92-98):
`quaternion.copy(parentWorldQuat).invert()`, where `THREE`'s
`Quaternion.invert` is the conjugate. -/
def focusedQuat (parent : GroupTransform) : Quaternion ℝ := star parent.quat

/-- The per-frame state of `HeartParticles`
(`src/components/HeartParticles.tsx`): the two immutable target buffers,
the interpolated current positions, and the group/mesh transforms the
frame callback writes. -/
structure HeartState where
  heartPositions : ℕ → Vec3
  dispersedPositions : ℕ → Vec3
  currentPositions : ℕ → Vec3
  groupPos : Vec3
  groupRotX : ℝ
  groupRotY : ℝ
  meshRotY : ℝ
  opacity : ℝ

/-- One `useFrame` tick of `HeartParticles`
(`src/components/HeartParticles.tsx`, lines 61-146): group placement and
parallax tilt, per-particle damped convergence toward the selected
target buffer (with the per-particle y noise), material opacity, and the
internal spin/sway.  `DAMPING = 0.05`. -/
def heartTick (g : GestureState) (anchor : Vec3) (time delta : ℝ)
    (s : HeartState) : HeartState :=
  let isFormed := g = GestureState.FORMED ∨ g = GestureState.ROTATING
  let targetPos := if isFormed then (0 : Vec3) else anchor
  let targetBuffer :=
    if isFormed ∨ g = GestureState.FOCUSED then s.heartPositions
    else s.dispersedPositions
  let scale : ℝ := 1
  { heartPositions := s.heartPositions,
    dispersedPositions := s.dispersedPositions,
    currentPositions := fun i =>
      let t := targetBuffer i
      let noise := Real.sin (time * 2 + (i : ℝ)) * 0.1
      let cur := s.currentPositions i
      ⟨cur.x + (t.x * scale - cur.x) * 0.05,
       cur.y + (t.y * scale + noise - cur.y) * 0.05,
       cur.z + (t.z * scale - cur.z) * 0.05⟩,
    groupPos := vecLerp s.groupPos targetPos 0.1,
    groupRotX := mathLerp s.groupRotX (-anchor.y * 0.05) 0.05,
    groupRotY := mathLerp s.groupRotY (anchor.x * 0.05) 0.05,
    meshRotY :=
      if g = GestureState.ROTATING then s.meshRotY + delta * 2
      else if g = GestureState.FORMED then
        mathLerp s.meshRotY (Real.sin (time * 0.5) * 0.2) 0.05
      else s.meshRotY + delta * 0.1,
    opacity :=
      if g = GestureState.FOCUSED then mathLerp s.opacity 0.2 0.1
      else mathLerp s.opacity 1 0.1 }

/-- A concrete `Math.random()` output stream used to exhibit that the
`positions` memo of `PhotoGallery` resamples existing photos' targets
when an image is added. -/
def randStream : ℕ → ℝ :=
  fun k => if k = 8 then 1 / 8 else if k = 1 then 1 / 2 else if k = 7 then 1 / 2 else 0

/-- Default entry used with `List.getD` on target lists. -/
def defaultPair : TargetPair := ⟨0, 0⟩

/-- A concrete pose with every landmark at the origin. -/
def posePlain : HandPose := fun _ => ⟨0, 0, 0⟩

/-- The same pose with every landmark's depth shifted. -/
def poseShifted : HandPose := fun _ => ⟨0, 0, 1⟩

/-- The identity group transform, used in witnesses. -/
def idTransform : GroupTransform := ⟨1, 0⟩

/-- The identity world transform, used in witnesses. -/
def idWorld : Vec3 → Vec3 := fun v => v

/-- A one-photo gallery, used in witnesses. -/
def singlePositions : List TargetPair := [⟨0, 0⟩]

/-- A fresh gallery state whose previous gesture state is `DISPERSED`. -/
def startGallery : GalleryState := ⟨0, fun _ => 0, GestureState.DISPERSED⟩

/-- A gallery state already in the `FOCUSED` gesture state. -/
def focusedGallery : GalleryState := ⟨0, fun _ => 0, GestureState.FOCUSED⟩

/-- A concrete heart-particle state used in witnesses. -/
def witnessHeartState : HeartState :=
  ⟨fun _ => 0, fun _ => 0, fun _ => 0, 0, 0, 0, 0, 0⟩

/-- A mesh scale that is NaN in every component. -/
def nanScale : Vec3Opt := ⟨none, none, none⟩

/-- A mesh scale that is zero in every component. -/
def zeroScale : Vec3Opt := ⟨some 0, some 0, some 0⟩

/-! ### Theorems -/

theorem vec3_add_x (a b : Vec3) : (a + b).x = a.x + b.x := rfl

theorem vec3_add_y (a b : Vec3) : (a + b).y = a.y + b.y := rfl

theorem vec3_add_z (a b : Vec3) : (a + b).z = a.z + b.z := rfl

theorem vec3_sub_x (a b : Vec3) : (a - b).x = a.x - b.x := rfl

theorem vec3_sub_y (a b : Vec3) : (a - b).y = a.y - b.y := rfl

theorem vec3_sub_z (a b : Vec3) : (a - b).z = a.z - b.z := rfl

theorem quat_re_mul_comm (a b : Quaternion ℝ) : (a * b).re = (b * a).re := by
  rw [Quaternion.mul_re, Quaternion.mul_re]
  ring

theorem pureQuat_imVec_eq (q : Quaternion ℝ) (h : q.re = 0) :
    pureQuat (imVec q) = q := by
  cases q
  simp_all [pureQuat, imVec]

theorem rotate_round (q : Quaternion ℝ) (h : Quaternion.normSq q = 1) (v : Vec3) :
    rotateByQuat q (rotateByQuat (star q) v) = v := by
  have hmid : rotateByQuat (star q) v = imVec (star q * pureQuat v * q) := by
    simp only [rotateByQuat, star_star]
  have hre : (star q * pureQuat v * q).re = 0 := by
    rw [quat_re_mul_comm, ← mul_assoc, Quaternion.self_mul_star, h]
    simp [pureQuat]
  have hassoc : q * (star q * pureQuat v * q) * star q =
      (q * star q) * pureQuat v * (q * star q) := by
    simp only [mul_assoc]
  rw [hmid]
  simp only [rotateByQuat]
  rw [pureQuat_imVec_eq _ hre, hassoc, Quaternion.self_mul_star, h,
    Quaternion.coe_one, one_mul, mul_one]
  rfl

theorem localToWorld_worldToLocal (T : GroupTransform)
    (h : Quaternion.normSq T.quat = 1) (p : Vec3) :
    localToWorld T (worldToLocal T p) = p := by
  simp only [localToWorld, worldToLocal]
  rw [rotate_round T.quat h (p - T.pos)]
  ext <;> simp only [vec3_add_x, vec3_add_y, vec3_add_z, vec3_sub_x, vec3_sub_y,
    vec3_sub_z] <;> ring

/-- C2: while a photo is focused, its per-tick local destination is the
inverse of the parent group's current world transform applied to the
fixed world point `(0,0,20)` (so applying the parent's world transform
to the destination recovers `(0,0,20)` every tick), and its orientation
is set to the two-sided inverse of the parent's current world
quaternion; the placement constant `(0,0,20)` is distinct from the
`(0,0,30)` camera anchor used for focus scoring. -/
theorem focusedPhoto_world_placement :
    ∀ (parent : GroupTransform) (g : GestureState) (targetPos : Vec3)
      (time posX : ℝ),
      Quaternion.normSq parent.quat = 1 →
      photoDest true g targetPos time posX parent =
        worldToLocal parent focusWorldTarget ∧
      localToWorld parent (photoDest true g targetPos time posX parent) =
        focusWorldTarget ∧
      parent.quat * focusedQuat parent = 1 ∧
      focusedQuat parent * parent.quat = 1 ∧
      focusWorldTarget ≠ cameraPos := by
  intro parent g targetPos time posX hunit
  have hdest : photoDest true g targetPos time posX parent =
      worldToLocal parent focusWorldTarget := rfl
  refine ⟨hdest, ?_, ?_, ?_, ?_⟩
  · rw [hdest]
    exact localToWorld_worldToLocal parent hunit focusWorldTarget
  · rw [show focusedQuat parent = star parent.quat from rfl,
      Quaternion.self_mul_star, hunit, Quaternion.coe_one]
  · rw [show focusedQuat parent = star parent.quat from rfl,
      Quaternion.star_mul_self, hunit, Quaternion.coe_one]
  · intro hcontra
    have : (20 : ℝ) = 30 := congrArg Vec3.z hcontra
    norm_num at this

/-- Witness for C2: the identity parent transform. -/
theorem focusedPhoto_world_placement_witness :
    photoDest true GestureState.DISPERSED ⟨0, 0, 0⟩ 0 0 idTransform =
      worldToLocal idTransform focusWorldTarget ∧
    localToWorld idTransform
        (photoDest true GestureState.DISPERSED ⟨0, 0, 0⟩ 0 0 idTransform) =
      focusWorldTarget ∧
    idTransform.quat * focusedQuat idTransform = 1 ∧
    focusedQuat idTransform * idTransform.quat = 1 ∧
    focusWorldTarget ≠ cameraPos :=
  focusedPhoto_world_placement idTransform GestureState.DISPERSED ⟨0, 0, 0⟩ 0 0
    (by simp [idTransform])

/-- C9: the heart sampler is homogeneous in its scale argument — for a
fixed outcome of the three random draws, each coordinate of
`randomInHeart s` is `s` times the corresponding coordinate of
`randomInHeart 1`. -/
theorem randomInHeart_scale_homogeneous :
    ∀ s u j w : ℝ,
      (randomInHeart s u j w).x = s * (randomInHeart 1 u j w).x ∧
      (randomInHeart s u j w).y = s * (randomInHeart 1 u j w).y ∧
      (randomInHeart s u j w).z = s * (randomInHeart 1 u j w).z := by
  intro s u j w
  refine ⟨?_, ?_, ?_⟩ <;> simp only [randomInHeart] <;> ring

/-- C10: a detection cycle that finds no hand reports `DISPERSED` and
invokes the hand-move handler at `(0.5, 0.5)`; since `handleHandMove`
maps `(x, y)` to `((0.5 - x) * 50, (0.5 - y) * 30, 0)`, losing the hand
resets the shared anchor exactly to the world origin. -/
theorem predictCycle_no_hand_resets_anchor :
    (∀ x y : ℝ, handleHandMove x y = ⟨(0.5 - x) * 50, (0.5 - y) * 30, 0⟩) ∧
    predictCycle [] = (GestureState.DISPERSED, ⟨0, 0, 0⟩) := by
  constructor
  · intro x y
    simp only [handleHandMove, Vec3.mk.injEq]
    refine ⟨by ring, by ring, trivial⟩
  · simp only [predictCycle, handleHandMove, Prod.mk.injEq, Vec3.mk.injEq]
    norm_num

/-- C8: for every radius and outcome of the three draws, the point
returned by `randomInSphere` has norm `radius * cbrt w` (the radial
draw), hence norm at most `radius`; the underlying direction (radius
and radial draw both 1) has unit norm. -/
theorem randomInSphere_norm :
    ∀ radius u v w : ℝ, 0 ≤ radius → 0 ≤ w → w < 1 →
      norm3 (randomInSphere radius u v w) = radius * cbrt w ∧
      norm3 (randomInSphere radius u v w) ≤ radius ∧
      norm3 (randomInSphere 1 u v 1) = 1 := by
  have key : ∀ r θ φ : ℝ, 0 ≤ r →
      norm3 ⟨r * Real.sin φ * Real.cos θ, r * Real.sin φ * Real.sin θ,
        r * Real.cos φ⟩ = r := by
    intro r θ φ hr
    have h1 := Real.sin_sq_add_cos_sq θ
    have h2 := Real.sin_sq_add_cos_sq φ
    have hsum : (r * Real.sin φ * Real.cos θ) ^ 2 +
        (r * Real.sin φ * Real.sin θ) ^ 2 + (r * Real.cos φ) ^ 2 = r ^ 2 := by
      linear_combination (r ^ 2 * Real.sin φ ^ 2) * h1 + r ^ 2 * h2
    simp only [norm3]
    rw [hsum, Real.sqrt_sq hr]
  intro radius u v w hrad hw0 hw1
  have hcb0 : 0 ≤ cbrt w := Real.rpow_nonneg hw0 _
  have hcb1 : cbrt w ≤ 1 := Real.rpow_le_one hw0 (le_of_lt hw1) (by norm_num)
  have hr0 : 0 ≤ cbrt w * radius := mul_nonneg hcb0 hrad
  have h1 : norm3 (randomInSphere radius u v w) = radius * cbrt w := by
    simp only [randomInSphere]
    rw [key _ _ _ hr0]
    ring
  refine ⟨h1, ?_, ?_⟩
  · rw [h1]
    calc radius * cbrt w ≤ radius * 1 :=
          mul_le_mul_of_nonneg_left hcb1 hrad
      _ = radius := mul_one radius
  · have hone : cbrt (1 : ℝ) * 1 = 1 := by
      simp [cbrt, Real.one_rpow]
    simp only [randomInSphere]
    rw [key _ _ _ (by rw [hone]; norm_num : (0:ℝ) ≤ cbrt (1:ℝ) * 1), hone]

/-- C1: the gesture classifier is the strict first-match-wins cascade of
the spec over the five 2D distances (pinch = thumb-tip to index-tip,
extensions = each fingertip to the wrist); an absent or empty pose list
gives `DISPERSED`; `LOADING` is never returned; and landmark depth `z`
never influences the result. -/
theorem detectGesture_cascade :
    detectGesture [] = GestureState.DISPERSED ∧
    (∀ (hand : HandPose) (rest : List HandPose),
      detectGesture (hand :: rest) =
        gestureCascadeSpec (dist2D (hand 4) (hand 8)) (dist2D (hand 8) (hand 0))
          (dist2D (hand 12) (hand 0)) (dist2D (hand 16) (hand 0))
          (dist2D (hand 20) (hand 0))) ∧
    (∀ landmarks : List HandPose, detectGesture landmarks ≠ GestureState.LOADING) ∧
    (∀ (h1 h2 : HandPose) (r1 r2 : List HandPose),
      (∀ i, (h1 i).x = (h2 i).x) → (∀ i, (h1 i).y = (h2 i).y) →
      detectGesture (h1 :: r1) = detectGesture (h2 :: r2)) := by
  have core : ∀ (hand : HandPose) (rest : List HandPose),
      detectGesture (hand :: rest) =
        gestureCascadeSpec (dist2D (hand 4) (hand 8)) (dist2D (hand 8) (hand 0))
          (dist2D (hand 12) (hand 0)) (dist2D (hand 16) (hand 0))
          (dist2D (hand 20) (hand 0)) := by
    intro hand rest
    simp only [detectGesture, gestureCascadeSpec]
    split_ifs <;> tauto
  refine ⟨rfl, core, ?_, ?_⟩
  · intro landmarks
    match landmarks with
    | [] => simp [detectGesture]
    | hand :: rest =>
      rw [core hand rest]
      simp only [gestureCascadeSpec]
      split_ifs <;> simp
  · intro h1 h2 r1 r2 hx hy
    have hdist : ∀ a b : Fin 21, dist2D (h1 a) (h1 b) = dist2D (h2 a) (h2 b) := by
      intro a b
      simp only [dist2D, hx a, hx b, hy a, hy b]
    rw [core h1 r1, core h2 r2, hdist 4 8, hdist 8 0, hdist 12 0, hdist 16 0,
      hdist 20 0]

/-- Witness for C1: two concrete poses equal in x and y but differing in
depth classify identically. -/
theorem detectGesture_cascade_witness :
    detectGesture [posePlain] = detectGesture [poseShifted] :=
  detectGesture_cascade.2.2.2 posePlain poseShifted [] []
    (fun _ => rfl) (fun _ => rfl)

/-- C6: on every tick both scene groups lerp their position with factor
0.1 toward the origin exactly in the `FORMED`/`ROTATING` states and
toward the hand anchor in every other state, while rotation-x and
rotation-y lerp with factor 0.05 toward `-anchor.y * 0.05` and
`anchor.x * 0.05` in every gesture state. -/
theorem group_placement_and_parallax :
    ∀ (g : GestureState) (anchor pos : Vec3) (rotX rotY time delta : ℝ)
      (s : HeartState),
      ((g = GestureState.FORMED ∨ g = GestureState.ROTATING) →
        (outerGroupTick g anchor pos rotX rotY).1 =
          ⟨pos.x + (0 - pos.x) * 0.1, pos.y + (0 - pos.y) * 0.1,
            pos.z + (0 - pos.z) * 0.1⟩) ∧
      (g ≠ GestureState.FORMED → g ≠ GestureState.ROTATING →
        (outerGroupTick g anchor pos rotX rotY).1 =
          ⟨pos.x + (anchor.x - pos.x) * 0.1, pos.y + (anchor.y - pos.y) * 0.1,
            pos.z + (anchor.z - pos.z) * 0.1⟩) ∧
      (outerGroupTick g anchor pos rotX rotY).2.1 =
        rotX + (-anchor.y * 0.05 - rotX) * 0.05 ∧
      (outerGroupTick g anchor pos rotX rotY).2.2 =
        rotY + (anchor.x * 0.05 - rotY) * 0.05 ∧
      ((g = GestureState.FORMED ∨ g = GestureState.ROTATING) →
        (heartTick g anchor time delta s).groupPos =
          ⟨s.groupPos.x + (0 - s.groupPos.x) * 0.1,
            s.groupPos.y + (0 - s.groupPos.y) * 0.1,
            s.groupPos.z + (0 - s.groupPos.z) * 0.1⟩) ∧
      (g ≠ GestureState.FORMED → g ≠ GestureState.ROTATING →
        (heartTick g anchor time delta s).groupPos =
          ⟨s.groupPos.x + (anchor.x - s.groupPos.x) * 0.1,
            s.groupPos.y + (anchor.y - s.groupPos.y) * 0.1,
            s.groupPos.z + (anchor.z - s.groupPos.z) * 0.1⟩) ∧
      (heartTick g anchor time delta s).groupRotX =
        s.groupRotX + (-anchor.y * 0.05 - s.groupRotX) * 0.05 ∧
      (heartTick g anchor time delta s).groupRotY =
        s.groupRotY + (anchor.x * 0.05 - s.groupRotY) * 0.05 := by
  intro g anchor pos rotX rotY time delta s
  have hOuter : outerGroupTick g anchor pos rotX rotY =
      (vecLerp pos
        (if g = GestureState.FORMED ∨ g = GestureState.ROTATING then (0 : Vec3)
          else anchor) 0.1,
       mathLerp rotX (-anchor.y * 0.05) 0.05,
       mathLerp rotY (anchor.x * 0.05) 0.05) := rfl
  have hHeartPos : (heartTick g anchor time delta s).groupPos =
      vecLerp s.groupPos
        (if g = GestureState.FORMED ∨ g = GestureState.ROTATING then (0 : Vec3)
          else anchor) 0.1 := rfl
  have hHeartRotX : (heartTick g anchor time delta s).groupRotX =
      mathLerp s.groupRotX (-anchor.y * 0.05) 0.05 := rfl
  have hHeartRotY : (heartTick g anchor time delta s).groupRotY =
      mathLerp s.groupRotY (anchor.x * 0.05) 0.05 := rfl
  refine ⟨?_, ?_, ?_, ?_, ?_, ?_, ?_, ?_⟩
  · intro h
    rw [hOuter]
    show vecLerp pos _ 0.1 = _
    rw [if_pos h]
    rfl
  · intro h1 h2
    rw [hOuter]
    show vecLerp pos _ 0.1 = _
    rw [if_neg (by tauto)]
    rfl
  · rw [hOuter]
    show mathLerp rotX (-anchor.y * 0.05) 0.05 = _
    simp only [mathLerp]
    ring
  · rw [hOuter]
    show mathLerp rotY (anchor.x * 0.05) 0.05 = _
    simp only [mathLerp]
    ring
  · intro h
    rw [hHeartPos, if_pos h]
    rfl
  · intro h1 h2
    rw [hHeartPos, if_neg (by tauto)]
    rfl
  · rw [hHeartRotX]
    simp only [mathLerp]
    ring
  · rw [hHeartRotY]
    simp only [mathLerp]
    ring

/-- Witness for C6: both branch selections at concrete inputs. -/
theorem group_placement_and_parallax_witness :
    (outerGroupTick GestureState.FORMED ⟨1, 2, 3⟩ ⟨4, 5, 6⟩ 7 8).1 =
      ⟨4 + (0 - 4) * 0.1, 5 + (0 - 5) * 0.1, 6 + (0 - 6) * 0.1⟩ ∧
    (outerGroupTick GestureState.DISPERSED ⟨1, 2, 3⟩ ⟨4, 5, 6⟩ 7 8).1 =
      ⟨4 + (1 - 4) * 0.1, 5 + (2 - 5) * 0.1, 6 + (3 - 6) * 0.1⟩ ∧
    (heartTick GestureState.FOCUSED ⟨1, 2, 3⟩ 0 0 witnessHeartState).groupPos =
      ⟨0 + (1 - 0) * 0.1, 0 + (2 - 0) * 0.1, 0 + (3 - 0) * 0.1⟩ :=
  ⟨(group_placement_and_parallax GestureState.FORMED ⟨1, 2, 3⟩ ⟨4, 5, 6⟩ 7 8 0 0
      witnessHeartState).1 (Or.inl rfl),
   (group_placement_and_parallax GestureState.DISPERSED ⟨1, 2, 3⟩ ⟨4, 5, 6⟩ 7 8 0 0
      witnessHeartState).2.1 (by decide) (by decide),
   (group_placement_and_parallax GestureState.FOCUSED ⟨1, 2, 3⟩ ⟨4, 5, 6⟩ 7 8 0 0
      witnessHeartState).2.2.2.2.2.1 (by decide) (by decide)⟩

theorem selectLoopP_le_init (l : List (ℕ × ℝ)) :
    ∀ acc : ℕ × ℝ, (selectLoopP l acc).2 ≤ acc.2 := by
  induction l with
  | nil => intro acc; simp [selectLoopP]
  | cons p rest ih =>
    intro acc
    obtain ⟨i, sc⟩ := p
    simp only [selectLoopP]
    split_ifs with hlt
    · exact le_trans (ih (i, sc)) (le_of_lt hlt)
    · exact ih acc

theorem selectLoopP_cases (l : List (ℕ × ℝ)) :
    ∀ acc : ℕ × ℝ, selectLoopP l acc = acc ∨
      (selectLoopP l acc ∈ l ∧ (selectLoopP l acc).2 < acc.2) := by
  induction l with
  | nil => intro acc; left; rfl
  | cons p rest ih =>
    intro acc
    obtain ⟨i, sc⟩ := p
    simp only [selectLoopP]
    split_ifs with hlt
    · rcases ih (i, sc) with h | ⟨hmem, hlt2⟩
      · right
        refine ⟨?_, ?_⟩
        · rw [h]; exact List.mem_cons_self _ _
        · rw [h]; exact hlt
      · exact Or.inr ⟨List.mem_cons_of_mem _ hmem, lt_trans hlt2 hlt⟩
    · rcases ih acc with h | ⟨hmem, h2⟩
      · exact Or.inl h
      · exact Or.inr ⟨List.mem_cons_of_mem _ hmem, h2⟩

theorem selectLoopP_min (l : List (ℕ × ℝ)) :
    ∀ (acc : ℕ × ℝ) (p : ℕ × ℝ), p ∈ l → (selectLoopP l acc).2 ≤ p.2 := by
  induction l with
  | nil => intro acc p hp; exact absurd hp (List.not_mem_nil p)
  | cons q rest ih =>
    intro acc p hp
    obtain ⟨i, sc⟩ := q
    simp only [selectLoopP]
    split_ifs with hlt
    · rcases List.mem_cons.mp hp with rfl | hp'
      · exact selectLoopP_le_init rest (i, sc)
      · exact ih (i, sc) p hp'
    · push_neg at hlt
      rcases List.mem_cons.mp hp with rfl | hp'
      · exact le_trans (selectLoopP_le_init rest acc) hlt
      · exact ih acc p hp'

theorem selectLoopP_tie (l : List (ℕ × ℝ)) :
    ∀ acc : ℕ × ℝ, (∀ p ∈ l, acc.1 < p.1) →
      List.Pairwise (fun p q : ℕ × ℝ => p.1 < q.1) l →
      ∀ p ∈ l, (selectLoopP l acc).2 = p.2 → (selectLoopP l acc).1 ≤ p.1 := by
  induction l with
  | nil => intro acc _ _ p hp; exact absurd hp (List.not_mem_nil p)
  | cons q rest ih =>
    intro acc hbound hpw p hp heq
    obtain ⟨i, sc⟩ := q
    obtain ⟨hhead, htail⟩ := List.pairwise_cons.mp hpw
    simp only [selectLoopP] at heq ⊢
    split_ifs at heq ⊢ with hlt
    · rcases List.mem_cons.mp hp with rfl | hp'
      · rcases selectLoopP_cases rest (i, sc) with hcase | ⟨_, hlt2⟩
        · rw [hcase]
        · exact absurd (heq ▸ hlt2) (lt_irrefl _)
      · exact ih (i, sc) hhead htail p hp' heq
    · push_neg at hlt
      rcases List.mem_cons.mp hp with rfl | hp'
      · have hle : (selectLoopP rest acc).2 ≤ acc.2 := selectLoopP_le_init rest acc
        have heq2 : (selectLoopP rest acc).2 = acc.2 :=
          le_antisymm hle (by rw [heq]; exact hlt)
        rcases selectLoopP_cases rest acc with hcase | ⟨_, hlt2⟩
        · rw [hcase]
          exact le_of_lt (hbound (i, sc) (List.mem_cons_self _ _))
        · exact absurd (heq2 ▸ hlt2) (lt_irrefl _)
      · exact ih acc (fun q hq => hbound q (List.mem_cons_of_mem _ hq)) htail p hp' heq

theorem selectLoop_eq_selectLoopP (l : List (ℕ × ℝ)) :
    ∀ (b : ℕ) (m : ℝ), selectLoop l b (some m) = (selectLoopP l (b, m)).1 := by
  induction l with
  | nil => intro b m; rfl
  | cons p rest ih =>
    intro b m
    obtain ⟨i, sc⟩ := p
    simp only [selectLoop, selectLoopP]
    split_ifs with hlt
    · exact ih i sc
    · exact ih b m

theorem enumFrom_fst_ge {α : Type*} (l : List α) :
    ∀ (n : ℕ), ∀ p ∈ List.enumFrom n l, n ≤ p.1 := by
  induction l with
  | nil => intro n p hp; exact absurd hp (List.not_mem_nil p)
  | cons a rest ih =>
    intro n p hp
    rw [show List.enumFrom n (a :: rest) = (n, a) :: List.enumFrom (n + 1) rest
      from rfl] at hp
    rcases List.mem_cons.mp hp with rfl | hp'
    · exact le_refl n
    · exact le_trans (Nat.le_succ n) (ih (n + 1) p hp')

theorem enumFrom_pairwise {α : Type*} (l : List α) :
    ∀ n : ℕ, List.Pairwise (fun p q : ℕ × α => p.1 < q.1) (List.enumFrom n l) := by
  induction l with
  | nil => intro n; exact List.Pairwise.nil
  | cons a rest ih =>
    intro n
    rw [show List.enumFrom n (a :: rest) = (n, a) :: List.enumFrom (n + 1) rest
      from rfl]
    exact List.Pairwise.cons
      (fun q hq => lt_of_lt_of_le (Nat.lt_succ_self n) (enumFrom_fst_ge rest (n + 1) q hq))
      (ih (n + 1))

theorem mem_enumFrom_iff {α : Type*} (d : α) (l : List α) :
    ∀ (n : ℕ) (p : ℕ × α),
      p ∈ List.enumFrom n l ↔
        ∃ k, k < l.length ∧ p.1 = n + k ∧ p.2 = l.getD k d := by
  induction l with
  | nil => intro n p; simp [List.enumFrom]
  | cons a rest ih =>
    intro n p
    rw [show List.enumFrom n (a :: rest) = (n, a) :: List.enumFrom (n + 1) rest
      from rfl]
    constructor
    · intro hp
      rcases List.mem_cons.mp hp with rfl | hp'
      · exact ⟨0, by simp, by simp, by simp⟩
      · obtain ⟨k, hk, h1, h2⟩ := (ih (n + 1) p).mp hp'
        refine ⟨k + 1, ?_, ?_, ?_⟩
        · simpa using Nat.succ_lt_succ hk
        · omega
        · simpa using h2
    · rintro ⟨k, hk, h1, h2⟩
      cases k with
      | zero =>
        have hp : p = (n, a) := by
          obtain ⟨p1, p2⟩ := p
          simp only [List.getD_cons_zero] at h2
          simp only at h1 h2
          simp [Prod.ext_iff, h1, h2]
        rw [hp]
        exact List.mem_cons_self _ _
      | succ k =>
        refine List.mem_cons_of_mem _ ((ih (n + 1) p).mpr ⟨k, ?_, ?_, ?_⟩)
        · simpa using hk
        · omega
        · simpa using h2

theorem selectBestIdx_spec (scores : List ℝ) (hne : scores ≠ []) :
    selectBestIdx scores < scores.length ∧
    (∀ j, j < scores.length →
      scores.getD (selectBestIdx scores) 0 ≤ scores.getD j 0) ∧
    (∀ j, j < scores.length →
      scores.getD j 0 = scores.getD (selectBestIdx scores) 0 →
      selectBestIdx scores ≤ j) := by
  match scores with
  | [] => exact absurd rfl hne
  | s0 :: rest =>
    have hsel : selectBestIdx (s0 :: rest) =
        (selectLoopP (List.enumFrom 1 rest) (0, s0)).1 := by
      show selectLoop ((s0 :: rest).enum) 0 none = _
      rw [show (s0 :: rest).enum = (0, s0) :: List.enumFrom 1 rest from rfl]
      show selectLoop (List.enumFrom 1 rest) 0 (some s0) = _
      exact selectLoop_eq_selectLoopP _ 0 s0
    have hval : (s0 :: rest).getD (selectLoopP (List.enumFrom 1 rest) (0, s0)).1 0 =
        (selectLoopP (List.enumFrom 1 rest) (0, s0)).2 := by
      rcases selectLoopP_cases (List.enumFrom 1 rest) (0, s0) with hcase | ⟨hmem, _⟩
      · rw [hcase]
        rfl
      · obtain ⟨k, hk, h1, h2⟩ := (mem_enumFrom_iff 0 rest 1 _).mp hmem
        rw [h1, h2, Nat.add_comm 1 k]
        exact List.getD_cons_succ
    have hbound : (selectLoopP (List.enumFrom 1 rest) (0, s0)).1 <
        (s0 :: rest).length := by
      rcases selectLoopP_cases (List.enumFrom 1 rest) (0, s0) with hcase | ⟨hmem, _⟩
      · rw [hcase]
        simp
      · obtain ⟨k, hk, h1, _⟩ := (mem_enumFrom_iff 0 rest 1 _).mp hmem
        rw [h1]
        simp only [List.length_cons]
        omega
    rw [hsel]
    refine ⟨hbound, ?_, ?_⟩
    · intro j hj
      rw [hval]
      cases j with
      | zero =>
        rw [List.getD_cons_zero]
        exact selectLoopP_le_init (List.enumFrom 1 rest) (0, s0)
      | succ k =>
        have hk : k < rest.length := by
          simp only [List.length_cons] at hj
          omega
        have hmem : ((1 + k, rest.getD k 0) : ℕ × ℝ) ∈ List.enumFrom 1 rest := by
          rw [mem_enumFrom_iff 0 rest 1]
          exact ⟨k, hk, rfl, rfl⟩
        have := selectLoopP_min (List.enumFrom 1 rest) (0, s0) _ hmem
        rw [List.getD_cons_succ]
        exact this
    · intro j hj heq
      rw [hval] at heq
      cases j with
      | zero =>
        rw [List.getD_cons_zero] at heq
        rcases selectLoopP_cases (List.enumFrom 1 rest) (0, s0) with hcase | ⟨_, hlt2⟩
        · rw [hcase]
        · have hlt3 : (selectLoopP (List.enumFrom 1 rest) (0, s0)).2 < s0 := hlt2
          exact absurd (lt_of_lt_of_eq hlt3 heq) (lt_irrefl _)
      | succ k =>
        have hk : k < rest.length := by
          simp only [List.length_cons] at hj
          omega
        have hmem : ((1 + k, rest.getD k 0) : ℕ × ℝ) ∈ List.enumFrom 1 rest := by
          rw [mem_enumFrom_iff 0 rest 1]
          exact ⟨k, hk, rfl, rfl⟩
        have htie := selectLoopP_tie (List.enumFrom 1 rest) (0, s0)
          (fun p hp => lt_of_lt_of_le Nat.zero_lt_one (enumFrom_fst_ge rest 1 p hp))
          (enumFrom_pairwise rest 1) _ hmem
        rw [List.getD_cons_succ] at heq
        have := htie heq.symm
        omega

theorem enumFrom_map_score_getD (world : Vec3 → Vec3) (counts : ℕ → ℕ)
    (src : List Vec3) :
    ∀ (n j : ℕ), j < src.length →
      ((List.enumFrom n src).map fun p => photoScore world counts p.1 p.2).getD j 0 =
        photoScore world counts (n + j) (src.getD j 0) := by
  induction src with
  | nil => intro n j hj; simp at hj
  | cons a rest ih =>
    intro n j hj
    rw [show List.enumFrom n (a :: rest) = (n, a) :: List.enumFrom (n + 1) rest
      from rfl]
    cases j with
    | zero => simp
    | succ k =>
      simp only [List.map_cons, List.getD_cons_succ]
      have hk : k < rest.length := by
        simp only [List.length_cons] at hj
        omega
      rw [ih (n + 1) k hk]
      have harith : n + 1 + k = n + (k + 1) := by omega
      rw [harith]

theorem focusScores_getD (world : Vec3 → Vec3) (counts : ℕ → ℕ)
    (src : List Vec3) (j : ℕ) (hj : j < src.length) :
    (focusScores world counts src).getD j 0 =
      photoScore world counts j (src.getD j 0) := by
  have h := enumFrom_map_score_getD world counts src 0 j hj
  rw [Nat.zero_add] at h
  exact h

theorem focusScores_length (world : Vec3 → Vec3) (counts : ℕ → ℕ)
    (src : List Vec3) : (focusScores world counts src).length = src.length := by
  simp [focusScores]

theorem preFocusSources_length (prev : GestureState) (positions : List TargetPair) :
    (preFocusSources prev positions).length = positions.length := by
  simp only [preFocusSources]
  split_ifs <;> simp

theorem focusEffect_select (positions : List TargetPair) (world : Vec3 → Vec3)
    (s : GalleryState) (hprev : s.previousState ≠ GestureState.FOCUSED)
    (hlen : 0 < positions.length) :
    focusEffect GestureState.FOCUSED positions world s =
      { activeIndex :=
          selectBestIdx
            (focusScores world s.viewCounts (preFocusSources s.previousState positions)),
        viewCounts := fun i =>
          if i =
              selectBestIdx
                (focusScores world s.viewCounts (preFocusSources s.previousState positions))
            then s.viewCounts i + 1 else s.viewCounts i,
        previousState := GestureState.FOCUSED } := by
  unfold focusEffect
  rw [if_pos ⟨rfl, hprev⟩, if_pos hlen]

/-- C3: on a transition into `FOCUSED` with a nonempty gallery, the
pre-focus sources are the formed targets iff the previous state was
`FORMED`/`ROTATING` (else the dispersed targets); each entry's score is
the world-transformed distance to the `(0,0,30)` camera anchor plus
`500` per previous view; the selected index is the argmin of the score
list with ties broken toward the lowest index; and exactly the selected
index's view count is incremented by one. -/
theorem focus_selection_argmin :
    ∀ (positions : List TargetPair) (world : Vec3 → Vec3) (s : GalleryState),
      s.previousState ≠ GestureState.FOCUSED → positions ≠ [] →
      ((s.previousState = GestureState.FORMED ∨
          s.previousState = GestureState.ROTATING) →
        preFocusSources s.previousState positions = positions.map TargetPair.formed) ∧
      (¬(s.previousState = GestureState.FORMED ∨
          s.previousState = GestureState.ROTATING) →
        preFocusSources s.previousState positions =
          positions.map TargetPair.dispersed) ∧
      (∀ j, j < positions.length →
        (focusScores world s.viewCounts
            (preFocusSources s.previousState positions)).getD j 0 =
          dist3 (world ((preFocusSources s.previousState positions).getD j 0))
              cameraPos + (s.viewCounts j : ℝ) * 500) ∧
      (focusEffect GestureState.FOCUSED positions world s).activeIndex <
        positions.length ∧
      (∀ j, j < positions.length →
        (focusScores world s.viewCounts
            (preFocusSources s.previousState positions)).getD
          ((focusEffect GestureState.FOCUSED positions world s).activeIndex) 0 ≤
        (focusScores world s.viewCounts
            (preFocusSources s.previousState positions)).getD j 0) ∧
      (∀ j, j < positions.length →
        (focusScores world s.viewCounts
            (preFocusSources s.previousState positions)).getD j 0 =
          (focusScores world s.viewCounts
              (preFocusSources s.previousState positions)).getD
            ((focusEffect GestureState.FOCUSED positions world s).activeIndex) 0 →
        (focusEffect GestureState.FOCUSED positions world s).activeIndex ≤ j) ∧
      (focusEffect GestureState.FOCUSED positions world s).viewCounts
          ((focusEffect GestureState.FOCUSED positions world s).activeIndex) =
        s.viewCounts
            ((focusEffect GestureState.FOCUSED positions world s).activeIndex) + 1 ∧
      (∀ i, i ≠ (focusEffect GestureState.FOCUSED positions world s).activeIndex →
        (focusEffect GestureState.FOCUSED positions world s).viewCounts i =
          s.viewCounts i) := by
  intro positions world s hprev hne
  have hlen : 0 < positions.length := List.length_pos.mpr hne
  have hE := focusEffect_select positions world s hprev hlen
  have hai : (focusEffect GestureState.FOCUSED positions world s).activeIndex =
      selectBestIdx
        (focusScores world s.viewCounts (preFocusSources s.previousState positions)) := by
    rw [hE]
  have hvc : (focusEffect GestureState.FOCUSED positions world s).viewCounts =
      fun i =>
        if i =
            selectBestIdx
              (focusScores world s.viewCounts (preFocusSources s.previousState positions))
          then s.viewCounts i + 1 else s.viewCounts i := by
    rw [hE]
  have hslen : (focusScores world s.viewCounts
      (preFocusSources s.previousState positions)).length = positions.length := by
    rw [focusScores_length, preFocusSources_length]
  have hsne : focusScores world s.viewCounts
      (preFocusSources s.previousState positions) ≠ [] := by
    intro h
    rw [h] at hslen
    simp only [List.length_nil] at hslen
    omega
  obtain ⟨hb, hmin, htie⟩ := selectBestIdx_spec _ hsne
  refine ⟨?_, ?_, ?_, ?_, ?_, ?_, ?_, ?_⟩
  · intro h
    show (if _ then _ else _) = _
    rw [if_pos h]
  · intro h
    show (if _ then _ else _) = _
    rw [if_neg h]
  · intro j hj
    rw [focusScores_getD world s.viewCounts _ j (by rw [preFocusSources_length]; exact hj)]
    rfl
  · rw [hai]
    rw [hslen] at hb
    exact hb
  · intro j hj
    rw [hai]
    exact hmin j (by rw [hslen]; exact hj)
  · intro j hj heq
    rw [hai] at heq ⊢
    exact htie j (by rw [hslen]; exact hj) heq
  · rw [hai, hvc]
    simp
  · intro i hi
    rw [hai] at hi
    rw [hvc]
    simp [hi]

/-- Witness for C3: with one photo, a fresh gallery, and the identity
world transform, the transition increments the selected view count. -/
theorem focus_selection_argmin_witness :
    (focusEffect GestureState.FOCUSED singlePositions idWorld startGallery).viewCounts
        ((focusEffect GestureState.FOCUSED singlePositions idWorld
            startGallery).activeIndex) =
      startGallery.viewCounts
          ((focusEffect GestureState.FOCUSED singlePositions idWorld
              startGallery).activeIndex) + 1 :=
  (focus_selection_argmin singlePositions idWorld startGallery
      (by simp [startGallery]) (by simp [singlePositions])).2.2.2.2.2.2.1

/-- C4: focus selection is edge-triggered — exactly one selection and
increment on a transition from non-`FOCUSED` into `FOCUSED`,
re-evaluating while already `FOCUSED` changes nothing, and with zero
photos the transition leaves the selection and the view counts
unchanged. -/
theorem focus_transition_runs_once :
    ∀ (positions : List TargetPair) (world : Vec3 → Vec3) (s : GalleryState),
      (s.previousState ≠ GestureState.FOCUSED → positions ≠ [] →
        (focusEffect GestureState.FOCUSED positions world s).viewCounts
            ((focusEffect GestureState.FOCUSED positions world s).activeIndex) =
          s.viewCounts
              ((focusEffect GestureState.FOCUSED positions world s).activeIndex) + 1) ∧
      (s.previousState = GestureState.FOCUSED →
        focusEffect GestureState.FOCUSED positions world s = s) ∧
      focusEffect GestureState.FOCUSED positions world
          (focusEffect GestureState.FOCUSED positions world s) =
        focusEffect GestureState.FOCUSED positions world s ∧
      (focusEffect GestureState.FOCUSED [] world s).activeIndex = s.activeIndex ∧
      (focusEffect GestureState.FOCUSED [] world s).viewCounts = s.viewCounts := by
  intro positions world s
  have hstate : ∀ (g : GestureState) (ps : List TargetPair) (w : Vec3 → Vec3)
      (t : GalleryState), (focusEffect g ps w t).previousState = g := by
    intro g ps w t
    unfold focusEffect
    split_ifs <;> rfl
  have hid : ∀ t : GalleryState, t.previousState = GestureState.FOCUSED →
      focusEffect GestureState.FOCUSED positions world t = t := by
    intro t ht
    unfold focusEffect
    rw [if_neg (by simp [ht])]
    obtain ⟨a, v, p⟩ := t
    simp only at ht
    rw [ht]
  refine ⟨?_, fun h => hid s h, hid _ (hstate _ _ _ _), ?_, ?_⟩
  · intro hprev hne
    have hlen : 0 < positions.length := List.length_pos.mpr hne
    rw [focusEffect_select positions world s hprev hlen]
    simp
  · unfold focusEffect
    split_ifs with h1 h2
    · simp only [List.length_nil] at h2
      omega
    · rfl
    · rfl
  · unfold focusEffect
    split_ifs with h1 h2
    · simp only [List.length_nil] at h2
      omega
    · rfl
    · rfl

/-- Witness for C4: re-running while already focused is the identity,
and a zero-photo transition leaves the view counts unchanged. -/
theorem focus_transition_runs_once_witness :
    focusEffect GestureState.FOCUSED singlePositions idWorld focusedGallery =
      focusedGallery ∧
    (focusEffect GestureState.FOCUSED [] idWorld startGallery).viewCounts =
      startGallery.viewCounts :=
  ⟨(focus_transition_runs_once singlePositions idWorld focusedGallery).2.1 rfl,
   (focus_transition_runs_once [] idWorld startGallery).2.2.2.2⟩

/-- C7: if the interpolated next scale is NaN or non-positive the scale
update is skipped and the mesh scale is left unchanged; consequently a
positive applied scale stays positive on every tick. -/
theorem scale_update_guard :
    ∀ (scale : Vec3Opt) (targetScale aspect : ℝ),
      (fLerp scale.y (some targetScale) 0.08 = none →
        scaleTick scale targetScale aspect = scale) ∧
      (∀ n : ℝ, fLerp scale.y (some targetScale) 0.08 = some n → n ≤ 0 →
        scaleTick scale targetScale aspect = scale) ∧
      ((∀ v : ℝ, scale.y = some v → 0 < v) →
        ∀ v : ℝ, (scaleTick scale targetScale aspect).y = some v → 0 < v) := by
  intro scale t a
  refine ⟨?_, ?_, ?_⟩
  · intro h
    simp only [scaleTick, h]
  · intro n h hn
    simp only [scaleTick, h]
    rw [if_neg]
    intro hgt
    have : (0.001 : ℝ) < 0 := lt_of_lt_of_le hgt hn
    norm_num at this
  · intro hpos v hv
    cases hE : fLerp scale.y (some t) 0.08 with
    | none =>
      simp only [scaleTick, hE] at hv
      exact hpos v hv
    | some n =>
      simp only [scaleTick, hE] at hv
      by_cases hgt : n > 0.001
      · rw [if_pos hgt] at hv
        simp only at hv
        have hnv : n = v := Option.some_injective _ hv
        have : (0.001 : ℝ) < v := hnv ▸ hgt
        linarith
      · rw [if_neg hgt] at hv
        exact hpos v hv

/-- Witness for C7: a NaN interpolation and a non-positive interpolation
both leave the mesh scale unchanged. -/
theorem scale_update_guard_witness :
    scaleTick nanScale 1 1 = nanScale ∧ scaleTick zeroScale (-1) 1 = zeroScale :=
  ⟨(scale_update_guard nanScale 1 1).1 rfl,
   (scale_update_guard zeroScale (-1) 1).2.1 ((1 - 0.08) * 0 + 0.08 * (-1)) rfl
     (by norm_num)⟩

theorem cbrt_zero : cbrt (0 : ℝ) = 0 := by
  simp only [cbrt]
  exact Real.zero_rpow (by norm_num)

theorem cbrt_one_eighth : cbrt ((1 : ℝ) / 8) = 1 / 2 := by
  have h8 : ((1 : ℝ) / 8) = ((1 : ℝ) / 2) ^ (3 : ℕ) := by norm_num
  calc cbrt ((1 : ℝ) / 8) = (((1 : ℝ) / 2) ^ (3 : ℕ)) ^ ((1 : ℝ) / 3) := by
        simp only [cbrt, h8]
    _ = (((1 : ℝ) / 2) ^ ((3 : ℕ) : ℝ)) ^ ((1 : ℝ) / 3) := by
        rw [Real.rpow_natCast]
    _ = ((1 : ℝ) / 2) ^ (((3 : ℕ) : ℝ) * ((1 : ℝ) / 3)) :=
        (Real.rpow_mul (by norm_num) _ _).symm
    _ = ((1 : ℝ) / 2) ^ (1 : ℝ) := by norm_num
    _ = 1 / 2 := Real.rpow_one _

theorem range_map_getD {α : Type*} (f : ℕ → α) (d : α) (n i : ℕ) (h : i < n) :
    ((List.range n).map f).getD i d = f i := by
  have hlen : i < ((List.range n).map f).length := by simp [h]
  rw [List.getD_eq_getElem?_getD, List.getElem?_eq_getElem hlen]
  simp

theorem buildTargets_getD (rand : ℕ → ℝ) (start n i : ℕ) (h : i < n) :
    (buildTargets rand start n).getD i defaultPair =
      { dispersed :=
          randomInSphere 30 (rand (start + 6 * i)) (rand (start + 6 * i + 1))
            (rand (start + 6 * i + 2)),
        formed :=
          randomInHeart 0.6 (rand (start + 6 * i + 3)) (rand (start + 6 * i + 4))
            (rand (start + 6 * i + 5)) } :=
  range_map_getD _ defaultPair n i h

/-- Counterexample to C5: with the concrete random stream `randStream`,
re-running the `positions` memo after one photo is added (draws resume
at stream offset 6) gives photo 0 a dispersed target different from the
one it had when the gallery held a single photo. -/
theorem photo_targets_resampled_on_add :
    ((buildTargets randStream (6 * 1) (1 + 1)).getD 0 defaultPair).dispersed ≠
      ((buildTargets randStream 0 1).getD 0 defaultPair).dispersed := by
  have hnewval : ((buildTargets randStream (6 * 1) (1 + 1)).getD 0 defaultPair).dispersed =
      randomInSphere 30 0 (1 / 2) (1 / 8) := by
    rw [buildTargets_getD randStream (6 * 1) (1 + 1) 0 (by norm_num)]
    norm_num [randStream]
  have holdval : ((buildTargets randStream 0 1).getD 0 defaultPair).dispersed =
      randomInSphere 30 0 (1 / 2) 0 := by
    rw [buildTargets_getD randStream 0 1 0 (by norm_num)]
    norm_num [randStream]
  have hnewx : (randomInSphere 30 0 (1 / 2) (1 / 8)).x = 15 := by
    simp only [randomInSphere]
    have h2v : (2 : ℝ) * (1 / 2) - 1 = 0 := by norm_num
    have hθ : (2 : ℝ) * Real.pi * 0 = 0 := by ring
    rw [h2v, Real.arccos_zero, Real.sin_pi_div_two, hθ, Real.cos_zero,
      cbrt_one_eighth]
    norm_num
  have holdx : (randomInSphere 30 0 (1 / 2) 0).x = 0 := by
    simp only [randomInSphere]
    rw [cbrt_zero]
    ring
  intro hcontra
  rw [hnewval, holdval] at hcontra
  have hx := congrArg Vec3.x hcontra
  rw [hnewx, holdx] at hx
  norm_num at hx

/-- C5 amended: the particle target buffers are never mutated by an
animation tick, and every photo target pair is exactly the function of
the six random draws consumed at its position in the most recent build
of the `positions` memo — so a rebuild (triggered whenever the image
list changes) derives every pair, including those of existing photos,
from fresh draws rather than preserving the old values. -/
theorem target_buffers_immutability_amended :
    (∀ (g : GestureState) (anchor : Vec3) (time delta : ℝ) (s : HeartState),
      (heartTick g anchor time delta s).heartPositions = s.heartPositions ∧
      (heartTick g anchor time delta s).dispersedPositions = s.dispersedPositions) ∧
    (∀ (rand : ℕ → ℝ) (start n i : ℕ), i < n →
      (buildTargets rand start n).getD i defaultPair =
        { dispersed :=
            randomInSphere 30 (rand (start + 6 * i)) (rand (start + 6 * i + 1))
              (rand (start + 6 * i + 2)),
          formed :=
            randomInHeart 0.6 (rand (start + 6 * i + 3)) (rand (start + 6 * i + 4))
              (rand (start + 6 * i + 5)) }) := by
  constructor
  · intro g anchor time delta s
    exact ⟨rfl, rfl⟩
  · intro rand start n i h
    exact range_map_getD _ defaultPair n i h

/-- Witness for C5 (amended): a concrete tick preserves both particle
buffers, and the first photo of a fresh build uses draws 0 through 5. -/
theorem target_buffers_immutability_amended_witness :
    (heartTick GestureState.FORMED ⟨1, 2, 3⟩ 0 0 witnessHeartState).heartPositions =
      witnessHeartState.heartPositions ∧
    (buildTargets randStream 0 1).getD 0 defaultPair =
      { dispersed := randomInSphere 30 (randStream 0) (randStream 1) (randStream 2),
        formed := randomInHeart 0.6 (randStream 3) (randStream 4) (randStream 5) } :=
  ⟨(target_buffers_immutability_amended.1 GestureState.FORMED ⟨1, 2, 3⟩ 0 0
      witnessHeartState).1,
   target_buffers_immutability_amended.2 randStream 0 1 0 (by norm_num)⟩

/-- Witness for C8: concrete draws. -/
theorem randomInSphere_norm_witness :
    norm3 (randomInSphere 2 0 (1 / 2) 0) = 2 * cbrt 0 ∧
    norm3 (randomInSphere 2 0 (1 / 2) 0) ≤ 2 ∧
    norm3 (randomInSphere 1 0 (1 / 2) 1) = 1 :=
  randomInSphere_norm 2 0 (1 / 2) 0 (by norm_num) (by norm_num) (by norm_num)

end HeartCloud

end
